import Mathlib

/-!
Shallow embedding of the `matthewtnoakes/baseball` repository
(`src/dice.py`, `src/players.py`) and verification of its specification.

Conventions of the embedding:
* Python `float` statistic values are modelled as `ℚ` (the code only adds,
  compares and divides them).
* Season years are modelled as `ℤ`.
* A Python runtime error (unguarded exception) is modelled as `Option.none`.
* A pandas per-season row is a season year together with a total mapping
  from statistic names to values (`String → ℚ`).
-/

namespace Baseball

/-! ### Dice model (`src/dice.py`) -/

/-- `calc_roll_value(t, a, b)` from `dice.py`: `(10 * t) + a + b`. -/
def calc_roll_value (t a b : ℤ) : ℤ :=
  10 * t + a + b

/-- The hardcoded "tens" die faces in `get_roll_value_probs`. -/
def tens_die_sides : List ℤ := [1, 2, 2, 3, 3, 3]

/-- The hardcoded small "ones" die faces in `get_roll_value_probs`. -/
def small_ones_die_sides : List ℤ := [0, 0, 1, 2, 3, 4]

/-- The hardcoded large "ones" die faces in `get_roll_value_probs`. -/
def large_ones_die_sides : List ℤ := [0, 1, 2, 3, 4, 5]

/-- The triple list comprehension from `get_roll_value_probs`, with the three
face lists as parameters: `[calc_roll_value(t, a, b) for t in tens for a in
small for b in large]`. -/
def gen_microstates (tens aF bF : List ℤ) : List ℤ :=
  tens.flatMap fun t => aF.flatMap fun a => bF.map fun b => calc_roll_value t a b

/-- `sorted(list(set(microstates)))`: the distinct roll values, ascending.
`List.dedup` keeps one copy of each value and sorting puts them in ascending
order, matching Python `sorted(set(...))`. -/
def gen_macrostates (tens aF bF : List ℤ) : List ℤ :=
  List.insertionSort (· ≤ ·) (gen_microstates tens aF bF).dedup

/-- The dictionary comprehension from `get_roll_value_probs`, with the face
lists as parameters: maps each macrostate `mac` to
`len([mic for mic in microstates if mic == mac]) / len(microstates)`.
The Python dict is modelled as an association list in key order. -/
def gen_roll_value_prob_map (tens aF bF : List ℤ) : List (ℤ × ℚ) :=
  (gen_macrostates tens aF bF).map fun mac =>
    (mac,
      (((gen_microstates tens aF bF).filter fun mic => mic = mac).length : ℚ) /
        ((gen_microstates tens aF bF).length : ℚ))

/-- `microstates` of `get_roll_value_probs` with the hardcoded dice. -/
def microstates : List ℤ :=
  gen_microstates tens_die_sides small_ones_die_sides large_ones_die_sides

/-- `macrostates` of `get_roll_value_probs` with the hardcoded dice. -/
def macrostates : List ℤ :=
  gen_macrostates tens_die_sides small_ones_die_sides large_ones_die_sides

/-- `get_roll_value_probs()` from `dice.py` (hardcoded dice). -/
def get_roll_value_probs : List (ℤ × ℚ) :=
  gen_roll_value_prob_map tens_die_sides small_ones_die_sides large_ones_die_sides

/-! ### Player model (`src/players.py`) -/

/-- One row of the `player_stats` dataframe: a season year together with the
row's statistic values, modelled as a total map from column name to value. -/
structure SeasonRec where
  season : ℤ
  stats : String → ℚ

/-- `self.player_stats[["Season", stat]].sort_values(by="Season")`: sort the
rows ascending by season.  Modelled with the stable `insertionSort`; for rows
with pairwise distinct seasons every correct sort gives the same list. -/
def sortBySeason (rows : List SeasonRec) : List SeasonRec :=
  List.insertionSort (fun p q => p.season ≤ q.season) rows

/-- Maximum of a list of rationals (`np.max`); `0` on the empty list, which
the code never evaluates (numpy raises there). -/
def maxVal : List ℚ → ℚ
  | [] => 0
  | x :: xs => if xs = [] then x else max x (maxVal xs)

/-- Index of the first occurrence of the maximum (`np.argmax`); `0` on the
empty list, which the code never evaluates. -/
def argmaxFirst : List ℚ → ℕ
  | [] => 0
  | x :: xs => if x < maxVal xs ∧ xs ≠ [] then argmaxFirst xs + 1 else 0

/-- `np.convolve(stat_vals, np.ones(dur, dtype=int), "valid")` for
`1 ≤ dur ≤ n`: the list of sums of every contiguous window of length `dur`,
indexed by start position `0 … n - dur`. -/
def windowSums (vals : List ℚ) (dur : ℕ) : List ℚ :=
  (List.range (vals.length + 1 - dur)).map fun i => ((vals.drop i).take dur).sum

/-- The dict returned by `Player._peak_stretch_info`. -/
structure PeakInfo where
  stretch_duration : ℕ
  stretch_stat : String
  stretch_value : ℚ
  stretch_start_year : ℤ
  stretch_end_year : ℤ
deriving DecidableEq

/-- `Player._peak_stretch_info(dur, stat)`.

The Python body is unguarded; its runtime errors are modelled as `none`:
* `dur = 0` → `np.ones(0)` is empty and `np.convolve` raises `ValueError`
  (and a negative `dur` would make `np.ones` raise as well);
* `dur > n` → `np.convolve(..., "valid")` returns copies of the total sum,
  and `season_vals[windowed_max_loc + dur - 1]` then raises `IndexError`
  because `windowed_max_loc + dur - 1 ≥ n`.

For `1 ≤ dur ≤ n` the body computes the window sums, takes `np.argmax`
(first occurrence of the maximum) and `np.max`, and reads the start and end
season by position. -/
def peak_stretch_info (rows : List SeasonRec) (dur : ℕ) (stat : String) :
    Option PeakInfo :=
  if 1 ≤ dur ∧ dur ≤ rows.length then
    let data := sortBySeason rows
    let stat_vals := data.map fun r => r.stats stat
    let season_vals := data.map fun r => r.season
    let windowed_stat_vals := windowSums stat_vals dur
    let windowed_max_loc := argmaxFirst windowed_stat_vals
    let windowed_max_val := maxVal windowed_stat_vals
    some
      { stretch_duration := dur
        stretch_stat := stat
        stretch_value := windowed_max_val
        stretch_start_year := season_vals.getD windowed_max_loc 0
        stretch_end_year := season_vals.getD (windowed_max_loc + dur - 1) 0 }
  else none

/-- The mutable state of a `Player` object: its stats table and the
`self._peak_info` cache (`None` after `__init__`). -/
structure PlayerState where
  player_stats : List SeasonRec
  peak_info : Option PeakInfo

/-- `Player.__init__`: the cache starts out as `None`. -/
def Player.init (rows : List SeasonRec) : PlayerState :=
  { player_stats := rows, peak_info := none }

/-- `Player.set_peak(dur, stat)`: overwrites `self._peak_info` with a fresh
`_peak_stretch_info` result; `none` when that call raises. -/
def set_peak (p : PlayerState) (dur : ℕ) (stat : String) : Option PlayerState :=
  (peak_stretch_info p.player_stats dur stat).map fun info =>
    { p with peak_info := some info }

/-- `Player.peak_value(dur, stat)`.  Returns the cached value when a peak is
cached and `dur` is omitted; otherwise recomputes (`dur = None` without a
cache raises inside `np.ones(None)`, hence `none`).  The method body contains
no assignment, so the state is unchanged; the paired state output makes that
explicit. -/
def peak_value (p : PlayerState) (dur : Option ℕ) (stat : String) :
    Option ℚ × PlayerState :=
  match p.peak_info, dur with
  | some info, none => (some info.stretch_value, p)
  | _, none => (none, p)
  | _, some d => ((peak_stretch_info p.player_stats d stat).map
      fun info => info.stretch_value, p)

/-- `Player.peak_start_year(dur, stat)`; same caching rule as `peak_value`. -/
def peak_start_year (p : PlayerState) (dur : Option ℕ) (stat : String) :
    Option ℤ × PlayerState :=
  match p.peak_info, dur with
  | some info, none => (some info.stretch_start_year, p)
  | _, none => (none, p)
  | _, some d => ((peak_stretch_info p.player_stats d stat).map
      fun info => info.stretch_start_year, p)

/-- `Player.peak_end_year(dur, stat)`; same caching rule as `peak_value`. -/
def peak_end_year (p : PlayerState) (dur : Option ℕ) (stat : String) :
    Option ℤ × PlayerState :=
  match p.peak_info, dur with
  | some info, none => (some info.stretch_end_year, p)
  | _, none => (none, p)
  | _, some d => ((peak_stretch_info p.player_stats d stat).map
      fun info => info.stretch_end_year, p)

/-- `Player.get_counting_stat(stat, start_year, end_year)`: filter the rows to
the inclusive season range and sum the statistic column. -/
def get_counting_stat (p : PlayerState) (stat : String)
    (start_year end_year : ℤ) : ℚ :=
  ((p.player_stats.filter fun r =>
      start_year ≤ r.season ∧ r.season ≤ end_year).map fun r => r.stats stat).sum

/-- `PeakBatter.__init__(name, stats, peak_dur, peak_stat)`: construct the
base player and immediately `set_peak(peak_dur, peak_stat)`; `none` when
`set_peak` raises. -/
def PeakBatter.init (rows : List SeasonRec) (peak_dur : ℕ) (peak_stat : String) :
    Option PlayerState :=
  set_peak (Player.init rows) peak_dur peak_stat

/-- `PeakBatter.free_base_rate`: `(BB + HBP) / max([AB, 1])` summed over the
peak window given by `peak_start_year()` / `peak_end_year()` (no arguments,
so the cached peak is used); `none` when those raise. -/
def free_base_rate (p : PlayerState) : Option ℚ :=
  match (peak_start_year p none "WAR").1, (peak_end_year p none "WAR").1 with
  | some sy, some ey =>
    let bb := get_counting_stat p "BB" sy ey
    let hbp := get_counting_stat p "HBP" sy ey
    let ab := get_counting_stat p "AB" sy ey
    some ((bb + hbp) / max ab 1)
  | _, _ => none

/-! ### Concrete season tables used to instantiate the theorems -/

/-- A season row carrying a single `"WAR"` value. -/
def wRec (s : ℤ) (v : ℚ) : SeasonRec :=
  ⟨s, fun n => if n = "WAR" then v else 0⟩

/-- The worked scenario from the spec: seasons 2018–2022 with WAR values
2, 3, 1, 5, 4. -/
def demoRows : List SeasonRec :=
  [wRec 2018 2, wRec 2019 3, wRec 2020 1, wRec 2021 5, wRec 2022 4]

/-- A career with gaps between seasons (2000, 2005, 2010). -/
def gappedRows : List SeasonRec :=
  [wRec 2000 1, wRec 2005 2, wRec 2010 3]

/-- Two rows sharing season 2000, in one input order… -/
def dupRowsA : List SeasonRec :=
  [wRec 2000 0, wRec 2000 5, wRec 2001 4]

/-- …and the same rows with the two season-2000 rows swapped. -/
def dupRowsB : List SeasonRec :=
  [wRec 2000 5, wRec 2000 0, wRec 2001 4]

/-- Distinct-season rows, arriving unsorted… -/
def permRowsA : List SeasonRec :=
  [wRec 2019 3, wRec 2018 2, wRec 2021 5]

/-- …and a permutation of them. -/
def permRowsB : List SeasonRec :=
  [wRec 2018 2, wRec 2019 3, wRec 2021 5]

/-- A two-season career used for the cache scenarios. -/
def cacheRows : List SeasonRec :=
  [wRec 2000 3, wRec 2001 4]

/-- The player state after `Player(cacheRows); set_peak(1, "WAR")`. -/
def cachedPlayer : PlayerState :=
  (set_peak (Player.init cacheRows) 1 "WAR").getD (Player.init cacheRows)

/-- The peak that `set_peak(1, "WAR")` caches for `cacheRows`. -/
def cachedInfo : PeakInfo :=
  { stretch_duration := 1
    stretch_stat := "WAR"
    stretch_value := 4
    stretch_start_year := 2001
    stretch_end_year := 2001 }

/-- A batter season with walks and a hit-by-pitch but zero at-bats. -/
def batterRec : SeasonRec :=
  ⟨2000, fun n =>
    if n = "BB" then 2 else if n = "HBP" then 1 else
      if n = "WAR" then 3 else 0⟩

/-- A one-season batter whose AB column sums to 0 over any window. -/
def batterRows : List SeasonRec := [batterRec]

/-- The state of `PeakBatter(batterRows, peak_dur=1, peak_stat="WAR")`. -/
def peakBatterP : PlayerState :=
  (PeakBatter.init batterRows 1 "WAR").getD (Player.init batterRows)


/-! ### Helper lemmas about the embedded operations -/

theorem length_sortBySeason (rows : List SeasonRec) :
    (sortBySeason rows).length = rows.length :=
  (List.perm_insertionSort _ rows).length_eq

theorem le_maxVal : ∀ {l : List ℚ} {y : ℚ}, y ∈ l → y ≤ maxVal l := by
  intro l
  induction l with
  | nil => intro y hy; cases hy
  | cons x xs ih =>
    intro y hy
    rw [maxVal]
    rcases List.mem_cons.mp hy with rfl | hmem
    · split
      · exact le_refl _
      · exact le_max_left _ _
    · have hne : xs ≠ [] := List.ne_nil_of_mem hmem
      rw [if_neg hne]
      exact le_trans (ih hmem) (le_max_right _ _)

theorem argmaxFirst_lt_length : ∀ {l : List ℚ}, l ≠ [] → argmaxFirst l < l.length := by
  intro l
  induction l with
  | nil => intro h; exact absurd rfl h
  | cons x xs ih =>
    intro _
    rw [argmaxFirst]
    split
    · next hc =>
      have := ih hc.2
      simpa [Nat.succ_lt_succ_iff] using this
    · simp

theorem getD_argmaxFirst : ∀ {l : List ℚ}, l ≠ [] → l.getD (argmaxFirst l) 0 = maxVal l := by
  intro l
  induction l with
  | nil => intro h; exact absurd rfl h
  | cons x xs ih =>
    intro _
    rw [argmaxFirst, maxVal]
    split
    · next hc =>
      rw [if_neg hc.2]
      have : (x :: xs).getD (argmaxFirst xs + 1) 0 = xs.getD (argmaxFirst xs) 0 := rfl
      rw [this, ih hc.2]
      exact (max_eq_right (le_of_lt hc.1)).symm
    · next hc =>
      by_cases hxs : xs = []
      · rw [if_pos hxs]; rfl
      · rw [if_neg hxs]
        have hle : maxVal xs ≤ x := by
          rcases not_and_or.mp hc with h | h
          · exact le_of_not_lt h
          · exact absurd hxs (by simpa using h)
        have : (x :: xs).getD 0 0 = x := rfl
        rw [this, max_eq_left hle]

theorem getD_lt_of_lt_argmaxFirst :
    ∀ {l : List ℚ} {i : ℕ}, i < argmaxFirst l → l.getD i 0 < maxVal l := by
  intro l
  induction l with
  | nil => intro i h; simp [argmaxFirst] at h
  | cons x xs ih =>
    intro i h
    rw [argmaxFirst] at h
    split at h
    · next hc =>
      rw [maxVal, if_neg hc.2, max_eq_right (le_of_lt hc.1)]
      match i with
      | 0 => exact hc.1
      | i + 1 =>
        have : (x :: xs).getD (i + 1) 0 = xs.getD i 0 := rfl
        rw [this]
        exact ih (Nat.lt_of_succ_lt_succ h)
    · omega

theorem windowSums_length (vals : List ℚ) (dur : ℕ) :
    (windowSums vals dur).length = vals.length + 1 - dur := by
  simp [windowSums]

theorem windowSums_getD (vals : List ℚ) (dur : ℕ) {i : ℕ}
    (h : i < vals.length + 1 - dur) :
    (windowSums vals dur).getD i 0 = ((vals.drop i).take dur).sum := by
  rw [windowSums, List.getD_eq_getElem?_getD, List.getElem?_map, List.getElem?_range h]
  rfl

theorem getD_mem {l : List ℚ} {i : ℕ} (h : i < l.length) : l.getD i 0 ∈ l := by
  rw [List.getD_eq_getElem?_getD, List.getElem?_eq_getElem h]
  exact List.getElem_mem h

theorem sortBySeason_eq_of_perm {rows1 rows2 : List SeasonRec}
    (hperm : rows1.Perm rows2)
    (hnd : (rows1.map fun r => r.season).Nodup) :
    sortBySeason rows1 = sortBySeason rows2 := by
  haveI ht : IsTotal SeasonRec fun p q => p.season ≤ q.season :=
    ⟨fun a b => le_total a.season b.season⟩
  haveI htr : IsTrans SeasonRec fun p q => p.season ≤ q.season :=
    ⟨fun _ _ _ h h2 => le_trans h h2⟩
  haveI has : IsAntisymm SeasonRec fun p q => p.season < q.season :=
    ⟨fun _ _ h h2 => absurd h2 (not_lt.mpr (le_of_lt h))⟩
  have hsymm : ∀ {a b : SeasonRec}, a.season ≠ b.season → b.season ≠ a.season :=
    fun h => h.symm
  have hp1 : (sortBySeason rows1).Perm rows1 := List.perm_insertionSort _ rows1
  have hp2 : (sortBySeason rows2).Perm rows2 := List.perm_insertionSort _ rows2
  have hp : (sortBySeason rows1).Perm (sortBySeason rows2) :=
    (hp1.trans hperm).trans hp2.symm
  have hnd1 : rows1.Pairwise fun a b => a.season ≠ b.season :=
    (List.pairwise_map).mp hnd
  have hne1 : (sortBySeason rows1).Pairwise fun a b => a.season ≠ b.season :=
    (hp1.pairwise_iff fun h => hsymm h).mpr hnd1
  have hnd2 : rows2.Pairwise fun a b => a.season ≠ b.season :=
    (hperm.pairwise_iff fun h => hsymm h).mp hnd1
  have hne2 : (sortBySeason rows2).Pairwise fun a b => a.season ≠ b.season :=
    (hp2.pairwise_iff fun h => hsymm h).mpr hnd2
  have hs1 : (sortBySeason rows1).Pairwise fun a b => a.season < b.season :=
    ((List.sorted_insertionSort _ rows1).and hne1).imp
      fun h => lt_of_le_of_ne h.1 h.2
  have hs2 : (sortBySeason rows2).Pairwise fun a b => a.season < b.season :=
    ((List.sorted_insertionSort _ rows2).and hne2).imp
      fun h => lt_of_le_of_ne h.1 h.2
  exact List.eq_of_perm_of_sorted hp hs1 hs2

theorem filter_length_eq_count (l : List ℤ) (v : ℤ) :
    (l.filter fun x => x = v).length = l.count v := by
  rw [List.count_eq_countP, List.countP_eq_length_filter]
  have hfun : (fun x : ℤ => decide (x = v)) = fun x => x == v := by
    funext x
    by_cases h : x = v <;> simp [h]
  rw [hfun]

theorem gen_microstates_ne_nil {tens aF bF : List ℤ}
    (h1 : tens ≠ []) (h2 : aF ≠ []) (h3 : bF ≠ []) :
    gen_microstates tens aF bF ≠ [] := by
  rcases List.exists_mem_of_ne_nil tens h1 with ⟨t, ht⟩
  rcases List.exists_mem_of_ne_nil aF h2 with ⟨a, ha⟩
  rcases List.exists_mem_of_ne_nil bF h3 with ⟨b, hb⟩
  apply List.ne_nil_of_mem (a := calc_roll_value t a b)
  rw [gen_microstates]
  exact List.mem_flatMap.mpr ⟨t, ht, List.mem_flatMap.mpr
    ⟨a, ha, List.mem_map.mpr ⟨b, hb, rfl⟩⟩⟩


/-! ### Claim theorems -/

/-- Claim C1: for every duration `d ≥ 1` and season series of length `n ≥ d`,
`_peak_stretch_info` returns a window whose sum of the chosen statistic over
`d` consecutive positions (after sorting by season ascending) is `≥` the sum
of every other contiguous window of length `d`, and when several windows
attain that maximum it returns the one with the lowest start index: the
returned start/end years are the season values at that first-maximal
window's positions. -/
theorem peak_window_maximal (rows : List SeasonRec) (dur : ℕ) (stat : String)
    (h1 : 1 ≤ dur) (h2 : dur ≤ rows.length) :
    ∃ info, peak_stretch_info rows dur stat = some info ∧
      (∀ i, i + dur ≤ rows.length →
        ((((sortBySeason rows).map fun r => r.stats stat).drop i).take dur).sum
          ≤ info.stretch_value) ∧
      ∃ loc, loc + dur ≤ rows.length ∧
        info.stretch_value =
          ((((sortBySeason rows).map fun r => r.stats stat).drop loc).take dur).sum ∧
        (∀ i, i < loc →
          ((((sortBySeason rows).map fun r => r.stats stat).drop i).take dur).sum
            < info.stretch_value) ∧
        info.stretch_start_year =
          ((sortBySeason rows).map fun r => r.season).getD loc 0 ∧
        info.stretch_end_year =
          ((sortBySeason rows).map fun r => r.season).getD (loc + dur - 1) 0 := by
  have hvlen : ((sortBySeason rows).map fun r => r.stats stat).length = rows.length := by
    rw [List.length_map, length_sortBySeason]
  set vals : List ℚ := (sortBySeason rows).map fun r => r.stats stat with hvals
  set w : List ℚ := windowSums vals dur with hw
  have hwlen : w.length = rows.length + 1 - dur := by
    rw [hw, windowSums_length, hvlen]
  have hwne : w ≠ [] := by
    apply List.ne_nil_of_length_pos
    omega
  have hloclt : argmaxFirst w < rows.length + 1 - dur := by
    rw [← hwlen]; exact argmaxFirst_lt_length hwne
  rw [peak_stretch_info, if_pos (And.intro h1 h2)]
  refine ⟨_, rfl, ?_, ?_⟩
  · intro i hi
    have hi' : i < vals.length + 1 - dur := by omega
    show ((vals.drop i).take dur).sum ≤ maxVal w
    rw [← windowSums_getD vals dur hi', ← hw]
    exact le_maxVal (getD_mem (by omega))
  · refine ⟨argmaxFirst w, by omega, ?_, ?_, rfl, rfl⟩
    · show maxVal w = ((vals.drop (argmaxFirst w)).take dur).sum
      rw [← windowSums_getD vals dur (by omega), ← hw, getD_argmaxFirst hwne]
    · intro i hi
      show ((vals.drop i).take dur).sum < maxVal w
      rw [← windowSums_getD vals dur (by omega), ← hw]
      exact getD_lt_of_lt_argmaxFirst hi

/-- Instance of `peak_window_maximal` on the spec scenario (seasons
2018–2022, values 2 3 1 5 4, duration 2). -/
theorem peak_window_maximal_witness :
    1 ≤ 2 ∧ 2 ≤ demoRows.length ∧
    (∃ info, peak_stretch_info demoRows 2 "WAR" = some info ∧
      (∀ i, i + 2 ≤ demoRows.length →
        ((((sortBySeason demoRows).map fun r => r.stats "WAR").drop i).take 2).sum
          ≤ info.stretch_value) ∧
      ∃ loc, loc + 2 ≤ demoRows.length ∧
        info.stretch_value =
          ((((sortBySeason demoRows).map fun r => r.stats "WAR").drop loc).take 2).sum ∧
        (∀ i, i < loc →
          ((((sortBySeason demoRows).map fun r => r.stats "WAR").drop i).take 2).sum
            < info.stretch_value) ∧
        info.stretch_start_year =
          ((sortBySeason demoRows).map fun r => r.season).getD loc 0 ∧
        info.stretch_end_year =
          ((sortBySeason demoRows).map fun r => r.season).getD (loc + 2 - 1) 0) :=
  ⟨by decide, by decide, peak_window_maximal demoRows 2 "WAR" (by decide) (by decide)⟩

set_option maxRecDepth 100000 in
/-- Refutation of claim C2 as stated: after `set_peak(1, "WAR")` the query
`peak_value(2, "WAR")` supplies a new duration/statistic pair and computes 7,
yet the cache is not replaced — a following `peak_value()` still returns the
old cached value 4, not 7. -/
theorem peak_cache_not_replaced_cex :
    (set_peak (Player.init cacheRows) 1 "WAR").isSome = true ∧
    ((set_peak (Player.init cacheRows) 1 "WAR").map fun s =>
      ((peak_value s (some 2) "WAR").1,
        (peak_value (peak_value s (some 2) "WAR").2 none "WAR").1))
      = some (some 7, some 4) ∧
    ¬ ((7 : ℚ) = 4) := by with_unfolding_all decide

/-- Claim C2 (amended): after a peak is cached, querying any of `peak_value`,
`peak_start_year` or `peak_end_year` without a duration returns the cached
result; a query with an explicit duration computes a fresh result for that
call, bypassing but not replacing the cache (the state component is `p`
itself); only `set_peak` replaces the cached entry. -/
theorem peak_cache_semantics (p : PlayerState) (info : PeakInfo)
    (stat stat2 : String) (d : ℕ)
    (h : p.peak_info = some info) :
    peak_value p none stat = (some info.stretch_value, p) ∧
    peak_start_year p none stat = (some info.stretch_start_year, p) ∧
    peak_end_year p none stat = (some info.stretch_end_year, p) ∧
    peak_value p (some d) stat2 =
      ((peak_stretch_info p.player_stats d stat2).map fun i => i.stretch_value, p) ∧
    peak_start_year p (some d) stat2 =
      ((peak_stretch_info p.player_stats d stat2).map
        fun i => i.stretch_start_year, p) ∧
    peak_end_year p (some d) stat2 =
      ((peak_stretch_info p.player_stats d stat2).map
        fun i => i.stretch_end_year, p) ∧
    ∀ p2, set_peak p d stat2 = some p2 →
      p2.peak_info = peak_stretch_info p.player_stats d stat2 := by
  refine ⟨?_, ?_, ?_, ?_, ?_, ?_, ?_⟩
  · simp [peak_value, h]
  · simp [peak_start_year, h]
  · simp [peak_end_year, h]
  · simp [peak_value, h]
  · simp [peak_start_year, h]
  · simp [peak_end_year, h]
  · intro p2 hp2
    rw [set_peak] at hp2
    rcases Option.map_eq_some'.mp hp2 with ⟨i, hi, rfl⟩
    simp [hi]

set_option maxRecDepth 100000 in
/-- Instance of `peak_cache_semantics` on the concrete two-season player. -/
theorem peak_cache_semantics_witness :
    cachedPlayer.peak_info = some cachedInfo ∧
    (peak_value cachedPlayer none "WAR" = (some cachedInfo.stretch_value, cachedPlayer) ∧
     peak_start_year cachedPlayer none "WAR" =
       (some cachedInfo.stretch_start_year, cachedPlayer) ∧
     peak_end_year cachedPlayer none "WAR" =
       (some cachedInfo.stretch_end_year, cachedPlayer) ∧
     peak_value cachedPlayer (some 2) "OPS" =
       ((peak_stretch_info cachedPlayer.player_stats 2 "OPS").map
         fun i => i.stretch_value, cachedPlayer) ∧
     peak_start_year cachedPlayer (some 2) "OPS" =
       ((peak_stretch_info cachedPlayer.player_stats 2 "OPS").map
         fun i => i.stretch_start_year, cachedPlayer) ∧
     peak_end_year cachedPlayer (some 2) "OPS" =
       ((peak_stretch_info cachedPlayer.player_stats 2 "OPS").map
         fun i => i.stretch_end_year, cachedPlayer) ∧
     ∀ p2, set_peak cachedPlayer 2 "OPS" = some p2 →
       p2.peak_info = peak_stretch_info cachedPlayer.player_stats 2 "OPS") :=
  ⟨by with_unfolding_all decide,
    peak_cache_semantics cachedPlayer cachedInfo "WAR" "OPS" 2
      (by with_unfolding_all decide)⟩

set_option maxRecDepth 100000 in
/-- Refutation of claim C3 as stated: the roll-value range does not stop at
35 — value 39 (t=3, a=4, b=5) occurs with probability 3/216 = 1/72. -/
theorem roll_value_range_cex :
    ((39 : ℤ), (1/72 : ℚ)) ∈ get_roll_value_probs ∧ ¬ ((39 : ℤ) ≤ 35) := by
  with_unfolding_all decide

set_option maxRecDepth 100000 in
/-- Claim C3 (amended): for the concrete dice, the distribution spans values
10 up to 39 (not 35: `10*3 + 4 + 5 = 39`); 10, 35 and 39 all occur with
positive probability, and the per-value counts sum to 216 = 6·6·6. -/
theorem roll_value_probs_scenario :
    (∀ pr ∈ get_roll_value_probs, 10 ≤ pr.1 ∧ pr.1 ≤ 39) ∧
    ((10 : ℤ), (1/108 : ℚ)) ∈ get_roll_value_probs ∧ (0 : ℚ) < 1/108 ∧
    ((35 : ℤ), (1/12 : ℚ)) ∈ get_roll_value_probs ∧ (0 : ℚ) < 1/12 ∧
    ((39 : ℤ), (1/72 : ℚ)) ∈ get_roll_value_probs ∧ (0 : ℚ) < 1/72 ∧
    microstates.length = 216 ∧
    (macrostates.map fun mac =>
      (microstates.filter fun mic => mic = mac).length).sum = 216 := by
  with_unfolding_all decide

/-- Claim C4: calling the peak finder with `duration < 1` or
`duration > n` fails with a runtime error (modelled as `none`); it never
clamps the duration or returns a window. -/
theorem peak_invalid_duration (rows : List SeasonRec) (dur : ℕ) (stat : String)
    (h : dur < 1 ∨ rows.length < dur) :
    peak_stretch_info rows dur stat = none := by
  rw [peak_stretch_info,
    if_neg (show ¬(1 ≤ dur ∧ dur ≤ rows.length) by omega)]

/-- Instance of `peak_invalid_duration`: duration 6 on a 5-season series. -/
theorem peak_invalid_duration_witness :
    (6 < 1 ∨ demoRows.length < 6) ∧ peak_stretch_info demoRows 6 "WAR" = none :=
  ⟨by decide, peak_invalid_duration demoRows 6 "WAR" (by decide)⟩

/-- Claim C5: for every valid duration the returned `stretch_start_year` and
`stretch_end_year` are the season values at the winning window positions
`loc` and `loc + dur - 1` in the season-sorted sequence (position-based, not
`start_year + dur - 1` year arithmetic), where `loc` is the first maximal
window start. -/
theorem peak_years_position_based (rows : List SeasonRec) (dur : ℕ) (stat : String)
    (h1 : 1 ≤ dur) (h2 : dur ≤ rows.length) :
    ∃ info loc, peak_stretch_info rows dur stat = some info ∧
      loc + dur ≤ rows.length ∧
      (∀ i, i + dur ≤ rows.length →
        ((((sortBySeason rows).map fun r => r.stats stat).drop i).take dur).sum
          ≤ ((((sortBySeason rows).map fun r => r.stats stat).drop loc).take dur).sum) ∧
      (∀ i, i < loc →
        ((((sortBySeason rows).map fun r => r.stats stat).drop i).take dur).sum
          < ((((sortBySeason rows).map fun r => r.stats stat).drop loc).take dur).sum) ∧
      info.stretch_start_year =
        ((sortBySeason rows).map fun r => r.season).getD loc 0 ∧
      info.stretch_end_year =
        ((sortBySeason rows).map fun r => r.season).getD (loc + dur - 1) 0 := by
  have hvlen : ((sortBySeason rows).map fun r => r.stats stat).length = rows.length := by
    rw [List.length_map, length_sortBySeason]
  set vals : List ℚ := (sortBySeason rows).map fun r => r.stats stat with hvals
  set w : List ℚ := windowSums vals dur with hw
  have hwlen : w.length = rows.length + 1 - dur := by
    rw [hw, windowSums_length, hvlen]
  have hwne : w ≠ [] := by
    apply List.ne_nil_of_length_pos
    omega
  have hloclt : argmaxFirst w < rows.length + 1 - dur := by
    rw [← hwlen]; exact argmaxFirst_lt_length hwne
  have hmaxloc : ((vals.drop (argmaxFirst w)).take dur).sum = maxVal w := by
    rw [← windowSums_getD vals dur (by omega), ← hw, getD_argmaxFirst hwne]
  rw [peak_stretch_info, if_pos (And.intro h1 h2)]
  refine ⟨_, argmaxFirst w, rfl, by omega, ?_, ?_, rfl, rfl⟩
  · intro i hi
    have hi' : i < vals.length + 1 - dur := by omega
    show ((vals.drop i).take dur).sum ≤ ((vals.drop (argmaxFirst w)).take dur).sum
    rw [hmaxloc, ← windowSums_getD vals dur hi', ← hw]
    exact le_maxVal (getD_mem (by omega))
  · intro i hi
    show ((vals.drop i).take dur).sum < ((vals.drop (argmaxFirst w)).take dur).sum
    rw [hmaxloc, ← windowSums_getD vals dur (by omega), ← hw]
    exact getD_lt_of_lt_argmaxFirst hi

/-- Instance of `peak_years_position_based` on a career with season gaps
(2000, 2005, 2010): the window years come from positions, so the end year is
2010 and not `2005 + 2 - 1`. -/
theorem peak_years_position_based_witness :
    1 ≤ 2 ∧ 2 ≤ gappedRows.length ∧
    (∃ info loc, peak_stretch_info gappedRows 2 "WAR" = some info ∧
      loc + 2 ≤ gappedRows.length ∧
      (∀ i, i + 2 ≤ gappedRows.length →
        ((((sortBySeason gappedRows).map fun r => r.stats "WAR").drop i).take 2).sum
          ≤ ((((sortBySeason gappedRows).map fun r => r.stats "WAR").drop loc).take 2).sum) ∧
      (∀ i, i < loc →
        ((((sortBySeason gappedRows).map fun r => r.stats "WAR").drop i).take 2).sum
          < ((((sortBySeason gappedRows).map fun r => r.stats "WAR").drop loc).take 2).sum) ∧
      info.stretch_start_year =
        ((sortBySeason gappedRows).map fun r => r.season).getD loc 0 ∧
      info.stretch_end_year =
        ((sortBySeason gappedRows).map fun r => r.season).getD (loc + 2 - 1) 0) :=
  ⟨by decide, by decide, peak_years_position_based gappedRows 2 "WAR" (by decide) (by decide)⟩

/-- Claim C6: for any three non-empty face lists, each value in the
enumerated distribution gets probability `count / total`, and the
probabilities sum to exactly 1 in exact rational arithmetic. -/
theorem gen_roll_value_probs_spec (tens aF bF : List ℤ)
    (h1 : tens ≠ []) (h2 : aF ≠ []) (h3 : bF ≠ []) :
    (∀ pr ∈ gen_roll_value_prob_map tens aF bF,
      pr.2 = ((gen_microstates tens aF bF).count pr.1 : ℚ) /
        ((gen_microstates tens aF bF).length : ℚ)) ∧
    ((gen_roll_value_prob_map tens aF bF).map fun pr => pr.2).sum = 1 := by
  set micro : List ℤ := gen_microstates tens aF bF with hmicro
  have hne : micro ≠ [] := gen_microstates_ne_nil h1 h2 h3
  have hNpos : 0 < micro.length := List.length_pos.mpr hne
  have hNne : ((micro.length : ℚ)) ≠ 0 := by
    exact_mod_cast Nat.pos_iff_ne_zero.mp hNpos
  constructor
  · intro pr hpr
    rw [gen_roll_value_prob_map] at hpr
    rcases List.mem_map.mp hpr with ⟨mac, _, rfl⟩
    simp only
    rw [filter_length_eq_count]
  · rw [gen_roll_value_prob_map, List.map_map]
    have hcomp : ((fun pr : ℤ × ℚ => pr.2) ∘ fun mac =>
        (mac, ((micro.filter fun mic => mic = mac).length : ℚ) /
          (micro.length : ℚ))) =
        fun mac => ((micro.count mac : ℚ)) / (micro.length : ℚ) := by
      funext mac
      simp only [Function.comp]
      rw [filter_length_eq_count]
    rw [hcomp]
    have hperm : ((gen_macrostates tens aF bF).map
        fun mac => ((micro.count mac : ℚ)) / (micro.length : ℚ)).Perm
        (micro.dedup.map fun mac => ((micro.count mac : ℚ)) / (micro.length : ℚ)) :=
      (List.perm_insertionSort _ micro.dedup).map _
    rw [hperm.sum_eq]
    have hdiv : (micro.dedup.map fun mac =>
        ((micro.count mac : ℚ)) / (micro.length : ℚ)) =
        micro.dedup.map fun mac => ((micro.count mac : ℚ)) * (micro.length : ℚ)⁻¹ := by
      simp [div_eq_mul_inv]
    rw [hdiv, List.sum_map_mul_right]
    have hcast : (micro.dedup.map fun mac => ((micro.count mac : ℚ))).sum =
        ((micro.dedup.map fun mac => micro.count mac).sum : ℚ) := by
      rw [Nat.cast_list_sum, List.map_map]
      rfl
    rw [hcast, List.sum_map_count_dedup_eq_length]
    exact mul_inv_cancel₀ hNne

/-- Instance of `gen_roll_value_probs_spec` on the concrete SI dice. -/
theorem gen_roll_value_probs_spec_witness :
    tens_die_sides ≠ [] ∧ small_ones_die_sides ≠ [] ∧ large_ones_die_sides ≠ [] ∧
    ((∀ pr ∈ gen_roll_value_prob_map tens_die_sides small_ones_die_sides
        large_ones_die_sides,
      pr.2 = ((gen_microstates tens_die_sides small_ones_die_sides
          large_ones_die_sides).count pr.1 : ℚ) /
        ((gen_microstates tens_die_sides small_ones_die_sides
          large_ones_die_sides).length : ℚ)) ∧
    ((gen_roll_value_prob_map tens_die_sides small_ones_die_sides
        large_ones_die_sides).map fun pr => pr.2).sum = 1) :=
  ⟨by decide, by decide, by decide,
    gen_roll_value_probs_spec _ _ _ (by decide) (by decide) (by decide)⟩

set_option maxRecDepth 100000 in
/-- Refutation of claim C7 as stated: with two rows sharing season 2000, the
peak result depends on the input order of the records. -/
theorem peak_perm_dup_seasons_cex :
    dupRowsA.Perm dupRowsB ∧
    ¬ (peak_stretch_info dupRowsA 2 "WAR" = peak_stretch_info dupRowsB 2 "WAR") :=
  ⟨List.Perm.swap _ _ _, by with_unfolding_all decide⟩

/-- Claim C7 (amended): for records with pairwise distinct seasons, the peak
finder is invariant under any permutation of the input records. -/
theorem peak_perm_invariant (rows1 rows2 : List SeasonRec) (dur : ℕ) (stat : String)
    (hperm : rows1.Perm rows2)
    (hnd : (rows1.map fun r => r.season).Nodup) :
    peak_stretch_info rows1 dur stat = peak_stretch_info rows2 dur stat := by
  rw [peak_stretch_info, peak_stretch_info, hperm.length_eq,
    sortBySeason_eq_of_perm hperm hnd]

/-- Instance of `peak_perm_invariant` on two orderings of the same
distinct-season records. -/
theorem peak_perm_invariant_witness :
    permRowsA.Perm permRowsB ∧
    (permRowsA.map fun r => r.season).Nodup ∧
    peak_stretch_info permRowsA 2 "WAR" = peak_stretch_info permRowsB 2 "WAR" :=
  ⟨List.Perm.swap _ _ _, by decide,
    peak_perm_invariant permRowsA permRowsB 2 "WAR" (List.Perm.swap _ _ _) (by decide)⟩

/-- Claim C8: for every constructed `PeakBatter`, `free_base_rate` returns a
finite value (`some q`), because the divisor is `max(AB, 1) ≥ 1`; in
particular no division error occurs when the AB sum is 0. -/
theorem free_base_rate_finite (rows : List SeasonRec) (peak_dur : ℕ)
    (peak_stat : String) (p : PlayerState)
    (h : PeakBatter.init rows peak_dur peak_stat = some p) :
    ∃ sy ey q,
      (peak_start_year p none "WAR").1 = some sy ∧
      (peak_end_year p none "WAR").1 = some ey ∧
      free_base_rate p = some q ∧
      1 ≤ max (get_counting_stat p "AB" sy ey) 1 ∧
      q * max (get_counting_stat p "AB" sy ey) 1 =
        get_counting_stat p "BB" sy ey + get_counting_stat p "HBP" sy ey := by
  have hex : ∃ info : PeakInfo, p.peak_info = some info := by
    rw [PeakBatter.init, set_peak] at h
    rcases Option.map_eq_some'.mp h with ⟨info, _, rfl⟩
    exact ⟨info, rfl⟩
  rcases hex with ⟨info, hpi⟩
  have hsy : (peak_start_year p none "WAR").1 = some info.stretch_start_year := by
    simp [peak_start_year, hpi]
  have hey : (peak_end_year p none "WAR").1 = some info.stretch_end_year := by
    simp [peak_end_year, hpi]
  have hfbr : free_base_rate p = some
      ((get_counting_stat p "BB" info.stretch_start_year info.stretch_end_year +
        get_counting_stat p "HBP" info.stretch_start_year info.stretch_end_year) /
       max (get_counting_stat p "AB" info.stretch_start_year info.stretch_end_year) 1) := by
    rw [free_base_rate, hsy, hey]
  refine ⟨info.stretch_start_year, info.stretch_end_year, _, hsy, hey, hfbr,
    le_max_right _ _, ?_⟩
  apply div_mul_cancel₀
  exact ne_of_gt (lt_of_lt_of_le one_pos (le_max_right _ _))

set_option maxRecDepth 100000 in
/-- Instance of `free_base_rate_finite` on a batter whose AB column sums
to 0 over the peak window. -/
theorem free_base_rate_finite_witness :
    PeakBatter.init batterRows 1 "WAR" = some peakBatterP ∧
    (∃ sy ey q,
      (peak_start_year peakBatterP none "WAR").1 = some sy ∧
      (peak_end_year peakBatterP none "WAR").1 = some ey ∧
      free_base_rate peakBatterP = some q ∧
      1 ≤ max (get_counting_stat peakBatterP "AB" sy ey) 1 ∧
      q * max (get_counting_stat peakBatterP "AB" sy ey) 1 =
        get_counting_stat peakBatterP "BB" sy ey +
          get_counting_stat peakBatterP "HBP" sy ey) :=
  ⟨by with_unfolding_all rfl,
    free_base_rate_finite batterRows 1 "WAR" peakBatterP
      (by with_unfolding_all rfl)⟩

/-- Claim C9: `get_counting_stat` sums the named statistic over exactly the
records whose season lies in the inclusive `[start_year, end_year]` range,
and returns 0 (not an error) when no season falls in the range. -/
theorem get_counting_stat_spec (p : PlayerState) (stat : String) (sy ey : ℤ) :
    get_counting_stat p stat sy ey =
      (p.player_stats.map fun r =>
        if sy ≤ r.season ∧ r.season ≤ ey then r.stats stat else 0).sum ∧
    ((∀ r ∈ p.player_stats, r.season < sy ∨ ey < r.season) →
      get_counting_stat p stat sy ey = 0) := by
  have key : ∀ rows : List SeasonRec,
      ((rows.filter fun r => sy ≤ r.season ∧ r.season ≤ ey).map
        fun r => r.stats stat).sum =
      (rows.map fun r =>
        if sy ≤ r.season ∧ r.season ≤ ey then r.stats stat else 0).sum := by
    intro rows
    induction rows with
    | nil => rfl
    | cons r rs ih =>
      simp only [List.filter_cons, List.map_cons, List.sum_cons, decide_eq_true_eq]
      by_cases hc : sy ≤ r.season ∧ r.season ≤ ey
      · rw [if_pos hc, if_pos hc, List.map_cons, List.sum_cons, ih]
      · rw [if_neg hc, if_neg hc, ih, zero_add]
  constructor
  · exact key p.player_stats
  · intro hall
    rw [get_counting_stat, key p.player_stats]
    apply List.sum_eq_zero
    intro x hx
    rcases List.mem_map.mp hx with ⟨r, hr, rfl⟩
    rcases hall r hr with h | h
    · rw [if_neg (by omega)]
    · rw [if_neg (by omega)]

/-- Instance of `get_counting_stat_spec` on an empty season range. -/
theorem get_counting_stat_empty_range_witness :
    (∀ r ∈ (Player.init demoRows).player_stats,
      r.season < 2030 ∨ 2035 < r.season) ∧
    get_counting_stat (Player.init demoRows) "WAR" 2030 2035 = 0 :=
  ⟨by decide,
    (get_counting_stat_spec (Player.init demoRows) "WAR" 2030 2035).2 (by decide)⟩

/-- Claim C10: whenever the peak cache is set and `dur` is omitted, the
queries return the cached result and silently ignore the `stat` argument:
the right-hand sides below do not depend on `stat`. -/
theorem peak_query_ignores_stat (p : PlayerState) (info : PeakInfo)
    (stat : String) (h : p.peak_info = some info) :
    (peak_value p none stat).1 = some info.stretch_value ∧
    (peak_start_year p none stat).1 = some info.stretch_start_year ∧
    (peak_end_year p none stat).1 = some info.stretch_end_year := by
  refine ⟨?_, ?_, ?_⟩ <;> simp [peak_value, peak_start_year, peak_end_year, h]

set_option maxRecDepth 100000 in
/-- Instance of `peak_query_ignores_stat` with a `stat` argument ("HR")
different from the cached statistic ("WAR"). -/
theorem peak_query_ignores_stat_witness :
    cachedPlayer.peak_info = some cachedInfo ∧
    ((peak_value cachedPlayer none "HR").1 = some cachedInfo.stretch_value ∧
     (peak_start_year cachedPlayer none "HR").1 = some cachedInfo.stretch_start_year ∧
     (peak_end_year cachedPlayer none "HR").1 = some cachedInfo.stretch_end_year) :=
  ⟨by with_unfolding_all decide,
    peak_query_ignores_stat cachedPlayer cachedInfo "HR"
      (by with_unfolding_all decide)⟩


end Baseball
